import Mathlib

/-!
Verification development for the n-tuple-network TD-learning core of a
Threes!-variant game framework (`agent.h`).  The board engine (`board.h`)
and the weight element type (`weight.h`) are external collaborators; the
board is modelled as a cell-read function and the weight tables as exact
rationals, following the interface the core consumes.
-/

namespace ThreesTD

/-- A board snapshot, read by linear cell index 0..15 (the only read access
the core uses, `b(i)` in the source).  `board.h` is external to the sources,
so the board is its interface: a function from position to cell value. -/
def Board : Type := Nat → Nat

/-- Modelled from the spec: `board.h` is not among the sources; the spec
requires a rotate-90°-clockwise transform of the 4×4 grid.  Row `r`,
column `c` of the rotated board is row `3-c`, column `r` of the original. -/
def rotate_clockwise (b : Board) : Board :=
  fun i => b (4 * (3 - i % 4) + i / 4)

/-- Modelled from the spec: `board.h` is not among the sources; the spec
requires a horizontal reflection of the 4×4 grid. -/
def reflect_horizontal (b : Board) : Board :=
  fun i => b (4 * (i / 4) + (3 - i % 4))

/-- The weight table store: shard index → packed address → entry.
The source keeps `std::vector<weight> net`; the element encoding of a
shard is opaque to the core, so entries are exact rationals. -/
def Net : Type := Nat → Nat → ℚ

/-- One in-place table update `net[s0][a0] += v` of the source. -/
def pointAdd (net : Net) (s0 a0 : Nat) (v : ℚ) : Net :=
  fun s a => if s = s0 then (if a = a0 then net s a + v else net s a) else net s a

/-- Truncation toward zero, the C++ `double` → `int` conversion applied when a
computed state value is pushed onto the `std::vector<int>` episode trace. -/
def truncTowardZero (q : ℚ) : ℤ := if 0 ≤ q then ⌊q⌋ else ⌈q⌉

/-- The per-episode trace and weight state owned by one agent instance:
`net`, `episode_boards`, `episode_rewards`, `episode_values`
(the latter two are `std::vector<int>` in the source). -/
structure AgentState where
  net : Net
  episode_boards : List Board
  episode_rewards : List Int
  episode_values : List Int

/-- The TD update value `alpha * (episode_values[i+1] + episode_rewards[i+1]
- episode_values[i])` computed in `close_episode` (integer arithmetic on the
stored traces, then scaled by `alpha`). -/
def tdDelta (alpha : ℚ) (values rewards : List Int) (i : Nat) : ℚ :=
  alpha * ((values.getD (i + 1) 0 + rewards.getD (i + 1) 0 - values.getD i 0 : ℤ) : ℚ)

/-- The backward loop `for (i = len-1; i >= 0; i--) ...` of `close_episode`:
`closeLoop f (k+1) net` first applies the step at index `k`, then walks down. -/
def closeLoop (f : Nat → Net → Net) : Nat → Net → Net
  | 0, net => net
  | k + 1, net => closeLoop f k (f k net)

end ThreesTD

namespace ThreesTD.four_tuple_agent

open ThreesTD

/-- `four_tuple_agent::net_index`: bitwise-or packing of four cell values,
4 bits per cell. -/
def net_index (index0 index1 index2 index3 : Nat) : Nat :=
  index0 ||| (index1 <<< 4) ||| (index2 <<< 8) ||| (index3 <<< 12)

/-- `four_tuple_agent::update_net`: for each `i` in 0..3 add `update_value`
to the row-tuple entry in shard `i` and the column-tuple entry in shard `i+4`,
in source order. -/
def update_net (net : Net) (b : Board) (update_value : ℚ) : Net :=
  let n0 := pointAdd net 0 (net_index (b 0) (b 1) (b 2) (b 3)) update_value
  let n1 := pointAdd n0 4 (net_index (b 0) (b 4) (b 8) (b 12)) update_value
  let n2 := pointAdd n1 1 (net_index (b 4) (b 5) (b 6) (b 7)) update_value
  let n3 := pointAdd n2 5 (net_index (b 1) (b 5) (b 9) (b 13)) update_value
  let n4 := pointAdd n3 2 (net_index (b 8) (b 9) (b 10) (b 11)) update_value
  let n5 := pointAdd n4 6 (net_index (b 2) (b 6) (b 10) (b 14)) update_value
  let n6 := pointAdd n5 3 (net_index (b 12) (b 13) (b 14) (b 15)) update_value
  pointAdd n6 7 (net_index (b 3) (b 7) (b 11) (b 15)) update_value

/-- `four_tuple_agent::calculate_state_value`: sum of the 4 row-tuple and 4
column-tuple lookups, accumulated in source order from 0. -/
def calculate_state_value (net : Net) (b : Board) : ℚ :=
  0 + net 0 (net_index (b 0) (b 1) (b 2) (b 3))
    + net 4 (net_index (b 0) (b 4) (b 8) (b 12))
    + net 1 (net_index (b 4) (b 5) (b 6) (b 7))
    + net 5 (net_index (b 1) (b 5) (b 9) (b 13))
    + net 2 (net_index (b 8) (b 9) (b 10) (b 11))
    + net 6 (net_index (b 2) (b 6) (b 10) (b 14))
    + net 3 (net_index (b 12) (b 13) (b 14) (b 15))
    + net 7 (net_index (b 3) (b 7) (b 11) (b 15))

end ThreesTD.four_tuple_agent

namespace ThreesTD.four_tuple_agent

open ThreesTD

/-- The running selection candidate of `four_tuple_agent::take_action`:
`best_reward`, `best_action`, `best_after_state_value`, `best_after`. -/
structure SelState where
  best_reward : Int
  best_action : Int
  best_after_state_value : ℚ
  best_after : Board

/-- One iteration of the `for (int op : opcode)` loop of
`four_tuple_agent::take_action`.  A slide is a collaborator function
returning `(reward, afterstate)`, with reward `-1` as the illegal sentinel. -/
def step (slide : Board → Nat → Int × Board) (net : Net) (b : Board)
    (s : SelState) (op : Nat) : SelState :=
  let reward := (slide b op).1
  let after := (slide b op).2
  if reward = -1 then s
  else
    let after_state_value := calculate_state_value net after + (reward : ℚ)
    if after_state_value > s.best_after_state_value ∨ s.best_reward = -1 then
      ⟨reward, (op : Int), after_state_value, after⟩
    else s

/-- `four_tuple_agent::take_action`: try directions 0,1,2,3 in order; if some
direction is legal, push the winning afterstate, its reward and
`best_after_state_value` (converted to `int`) onto the trace and return the
chosen opcode, otherwise return the rejection action and leave state alone. -/
def take_action (slide : Board → Nat → Int × Board) (st : AgentState)
    (b : Board) : Option Int × AgentState :=
  let s := [0, 1, 2, 3].foldl (step slide st.net b) ⟨-1, -1, -1000, fun _ => 0⟩
  if s.best_reward ≠ -1 then
    (some s.best_action,
      { st with
        episode_boards := st.episode_boards ++ [s.best_after],
        episode_rewards := st.episode_rewards ++ [s.best_reward],
        episode_values := st.episode_values ++ [truncTowardZero s.best_after_state_value] })
  else (none, st)

/-- `four_tuple_agent::open_episode`: clear the three trace vectors. -/
def open_episode (st : AgentState) : AgentState :=
  { st with episode_boards := [], episode_rewards := [], episode_values := [] }

/-- `four_tuple_agent::close_episode`: push terminal reward 0 and value 0,
then walk the recorded boards from `len-1` down to 0 applying `update_net`
with the TD update value. -/
def close_episode (alpha : ℚ) (st : AgentState) : AgentState :=
  let rewards := st.episode_rewards ++ [0]
  let values := st.episode_values ++ [0]
  let len := st.episode_boards.length
  { st with
    net := closeLoop
      (fun i n => update_net n (st.episode_boards.getD i (fun _ => 0))
        (tdDelta alpha values rewards i)) len st.net,
    episode_rewards := rewards,
    episode_values := values }

end ThreesTD.four_tuple_agent

namespace ThreesTD.six_tuple_agent

open ThreesTD

/-- `six_tuple_agent`'s `tuple_index` table, set in the constructor. -/
def tuple_index : Nat → List Nat
  | 0 => [0, 1, 2, 3, 4, 5]
  | 1 => [4, 5, 6, 7, 8, 9]
  | 2 => [5, 6, 7, 9, 10, 11]
  | _ => [9, 10, 11, 13, 14, 15]

/-- The inner `for (j...) index |= fb(tuple_index[i][j]) << (4*j)` packing of
one 6-cell tuple against one board variant. -/
def tuple_address (fb : Board) (t : List Nat) : Nat :=
  fb (t.getD 0 0) ||| (fb (t.getD 1 0) <<< 4) ||| (fb (t.getD 2 0) <<< 8)
    ||| (fb (t.getD 3 0) <<< 12) ||| (fb (t.getD 4 0) <<< 16) ||| (fb (t.getD 5 0) <<< 20)

/-- The inner `for (i = 0..3)` update block of `six_tuple_agent::update_net`:
the four base tuples of one board variant go to shards `base..base+3`. -/
def updBlock (net : Net) (base : Nat) (fb : Board) (v : ℚ) : Net :=
  let n0 := pointAdd net base (tuple_address fb (tuple_index 0)) v
  let n1 := pointAdd n0 (base + 1) (tuple_address fb (tuple_index 1)) v
  let n2 := pointAdd n1 (base + 2) (tuple_address fb (tuple_index 2)) v
  pointAdd n2 (base + 3) (tuple_address fb (tuple_index 3)) v

/-- The inner `for (i = 0..3)` read block of
`six_tuple_agent::calculate_state_value`. -/
def calcBlock (net : Net) (base : Nat) (fb : Board) : ℚ :=
  net base (tuple_address fb (tuple_index 0))
    + net (base + 1) (tuple_address fb (tuple_index 1))
    + net (base + 2) (tuple_address fb (tuple_index 2))
    + net (base + 3) (tuple_address fb (tuple_index 3))

/-- `six_tuple_agent::update_net`: update the 4 tuples of the original board
(shards 0..3), of its three successive clockwise rotations (shards 4..15),
of the horizontal reflection (shards 16..19) and of its three successive
clockwise rotations (shards 20..31), in source order. -/
def update_net (net : Net) (b : Board) (update_value : ℚ) : Net :=
  let fb0 := b
  let n0 := updBlock net 0 fb0 update_value
  let fb1 := rotate_clockwise fb0
  let n1 := updBlock n0 4 fb1 update_value
  let fb2 := rotate_clockwise fb1
  let n2 := updBlock n1 8 fb2 update_value
  let fb3 := rotate_clockwise fb2
  let n3 := updBlock n2 12 fb3 update_value
  let gb0 := reflect_horizontal b
  let n4 := updBlock n3 16 gb0 update_value
  let gb1 := rotate_clockwise gb0
  let n5 := updBlock n4 20 gb1 update_value
  let gb2 := rotate_clockwise gb1
  let n6 := updBlock n5 24 gb2 update_value
  let gb3 := rotate_clockwise gb2
  updBlock n6 28 gb3 update_value

/-- `six_tuple_agent::calculate_state_value`: sum the 32 lookups over the same
8 variants × 4 tuples, in the same order as `update_net`. -/
def calculate_state_value (net : Net) (b : Board) : ℚ :=
  let fb0 := b
  let fb1 := rotate_clockwise fb0
  let fb2 := rotate_clockwise fb1
  let fb3 := rotate_clockwise fb2
  let gb0 := reflect_horizontal b
  let gb1 := rotate_clockwise gb0
  let gb2 := rotate_clockwise gb1
  let gb3 := rotate_clockwise gb2
  0 + calcBlock net 0 fb0 + calcBlock net 4 fb1 + calcBlock net 8 fb2
    + calcBlock net 12 fb3 + calcBlock net 16 gb0 + calcBlock net 20 gb1
    + calcBlock net 24 gb2 + calcBlock net 28 gb3

/-- The running selection candidate of `six_tuple_agent::take_action`; unlike
the four-tuple agent it also keeps `best_episode_after_state_value`, the
reward-free value destined for the trace. -/
structure SelState where
  best_reward : Int
  best_action : Int
  best_after_state_value : ℚ
  best_episode_after_state_value : ℚ
  best_after : Board

/-- One iteration of the `for (int op : opcode)` loop of
`six_tuple_agent::take_action`. -/
def step (slide : Board → Nat → Int × Board) (net : Net) (b : Board)
    (s : SelState) (op : Nat) : SelState :=
  let reward := (slide b op).1
  let after := (slide b op).2
  if reward = -1 then s
  else
    let episode_after_state_value := calculate_state_value net after
    let after_state_value := episode_after_state_value + (reward : ℚ)
    if after_state_value > s.best_after_state_value ∨ s.best_reward = -1 then
      ⟨reward, (op : Int), after_state_value, episode_after_state_value, after⟩
    else s

/-- `six_tuple_agent::take_action`: like the four-tuple agent's, but the value
pushed onto the trace is `best_episode_after_state_value` (converted to
`int`), the value without the slide reward. -/
def take_action (slide : Board → Nat → Int × Board) (st : AgentState)
    (b : Board) : Option Int × AgentState :=
  let s := [0, 1, 2, 3].foldl (step slide st.net b) ⟨-1, -1, -1000, -1000, fun _ => 0⟩
  if s.best_reward ≠ -1 then
    (some s.best_action,
      { st with
        episode_boards := st.episode_boards ++ [s.best_after],
        episode_rewards := st.episode_rewards ++ [s.best_reward],
        episode_values := st.episode_values ++ [truncTowardZero s.best_episode_after_state_value] })
  else (none, st)

/-- `six_tuple_agent::open_episode`: clear the three trace vectors. -/
def open_episode (st : AgentState) : AgentState :=
  { st with episode_boards := [], episode_rewards := [], episode_values := [] }

/-- `six_tuple_agent::close_episode`: identical loop to the four-tuple
agent's, but updating through `six_tuple_agent::update_net`. -/
def close_episode (alpha : ℚ) (st : AgentState) : AgentState :=
  let rewards := st.episode_rewards ++ [0]
  let values := st.episode_values ++ [0]
  let len := st.episode_boards.length
  { st with
    net := closeLoop
      (fun i n => update_net n (st.episode_boards.getD i (fun _ => 0))
        (tdDelta alpha values rewards i)) len st.net,
    episode_rewards := rewards,
    episode_values := values }

end ThreesTD.six_tuple_agent

namespace ThreesTD.six_tuple_agent

open ThreesTD

/-- The 8 symmetry variants in the fixed source order: original, three
clockwise rotations, horizontal reflection, three clockwise rotations of the
reflection.  Characterisation helper for the shard access pattern. -/
def variantBoard (b : Board) (k : Nat) : Board :=
  if k = 0 then b
  else if k = 1 then rotate_clockwise b
  else if k = 2 then rotate_clockwise (rotate_clockwise b)
  else if k = 3 then rotate_clockwise (rotate_clockwise (rotate_clockwise b))
  else if k = 4 then reflect_horizontal b
  else if k = 5 then rotate_clockwise (reflect_horizontal b)
  else if k = 6 then rotate_clockwise (rotate_clockwise (reflect_horizontal b))
  else rotate_clockwise (rotate_clockwise (rotate_clockwise (reflect_horizontal b)))

/-- The packed address that shard `s` (0..31) is read and written at, for a
given board: variant `s / 4`, base tuple `s % 4`. -/
def shardAddr (b : Board) (s : Nat) : Nat :=
  tuple_address (variantBoard b (s / 4)) (tuple_index (s % 4))

lemma updBlock_apply (net : Net) (base : Nat) (fb : Board) (v : ℚ) (s a : Nat) :
    updBlock net base fb v s a
      = net s a + (if base ≤ s ∧ s < base + 4
          then (if a = tuple_address fb (tuple_index (s - base)) then v else 0) else 0) := by
  simp only [updBlock, pointAdd]
  by_cases h3 : s = base + 3
  · rw [if_pos h3, if_neg (show s = base + 2 → False by omega),
      if_neg (show s = base + 1 → False by omega), if_neg (show s = base → False by omega),
      if_pos (show base ≤ s ∧ s < base + 4 by omega), show s - base = 3 by omega]
    by_cases ha : a = tuple_address fb (tuple_index 3)
    · rw [if_pos ha, if_pos ha]
    · rw [if_neg ha, if_neg ha, add_zero]
  · by_cases h2 : s = base + 2
    · rw [if_neg h3, if_pos h2, if_neg (show s = base + 1 → False by omega),
        if_neg (show s = base → False by omega),
        if_pos (show base ≤ s ∧ s < base + 4 by omega), show s - base = 2 by omega]
      by_cases ha : a = tuple_address fb (tuple_index 2)
      · rw [if_pos ha, if_pos ha]
      · rw [if_neg ha, if_neg ha, add_zero]
    · by_cases h1 : s = base + 1
      · rw [if_neg h3, if_neg h2, if_pos h1, if_neg (show s = base → False by omega),
          if_pos (show base ≤ s ∧ s < base + 4 by omega), show s - base = 1 by omega]
        by_cases ha : a = tuple_address fb (tuple_index 1)
        · rw [if_pos ha, if_pos ha]
        · rw [if_neg ha, if_neg ha, add_zero]
      · by_cases h0 : s = base
        · rw [if_neg h3, if_neg h2, if_neg h1, if_pos h0,
            if_pos (show base ≤ s ∧ s < base + 4 by omega), show s - base = 0 by omega]
          by_cases ha : a = tuple_address fb (tuple_index 0)
          · rw [if_pos ha, if_pos ha]
          · rw [if_neg ha, if_neg ha, add_zero]
        · rw [if_neg h3, if_neg h2, if_neg h1, if_neg h0,
            if_neg (show base ≤ s ∧ s < base + 4 → False by omega), add_zero]

lemma update_net_apply (net : Net) (b : Board) (v : ℚ) (s a : Nat) :
    update_net net b v s a
      = net s a + (if s < 32 then (if a = shardAddr b s then v else 0) else 0) := by
  simp only [update_net, updBlock_apply]
  have hcase : s < 4 ∨ (4 ≤ s ∧ s < 8) ∨ (8 ≤ s ∧ s < 12) ∨ (12 ≤ s ∧ s < 16)
      ∨ (16 ≤ s ∧ s < 20) ∨ (20 ≤ s ∧ s < 24) ∨ (24 ≤ s ∧ s < 28)
      ∨ (28 ≤ s ∧ s < 32) ∨ 32 ≤ s := by omega
  rcases hcase with h | h | h | h | h | h | h | h | h
  · rw [if_pos (show s < 32 by omega),
        if_pos (show 0 ≤ s ∧ s < 0 + 4 by omega),
        if_neg (show 4 ≤ s ∧ s < 4 + 4 → False by omega),
        if_neg (show 8 ≤ s ∧ s < 8 + 4 → False by omega),
        if_neg (show 12 ≤ s ∧ s < 12 + 4 → False by omega),
        if_neg (show 16 ≤ s ∧ s < 16 + 4 → False by omega),
        if_neg (show 20 ≤ s ∧ s < 20 + 4 → False by omega),
        if_neg (show 24 ≤ s ∧ s < 24 + 4 → False by omega),
        if_neg (show 28 ≤ s ∧ s < 28 + 4 → False by omega)]
    simp [shardAddr, variantBoard, show s / 4 = 0 by omega, show s % 4 = s - 0 by omega]
  · rw [if_pos (show s < 32 by omega),
        if_neg (show 0 ≤ s ∧ s < 0 + 4 → False by omega),
        if_pos (show 4 ≤ s ∧ s < 4 + 4 by omega),
        if_neg (show 8 ≤ s ∧ s < 8 + 4 → False by omega),
        if_neg (show 12 ≤ s ∧ s < 12 + 4 → False by omega),
        if_neg (show 16 ≤ s ∧ s < 16 + 4 → False by omega),
        if_neg (show 20 ≤ s ∧ s < 20 + 4 → False by omega),
        if_neg (show 24 ≤ s ∧ s < 24 + 4 → False by omega),
        if_neg (show 28 ≤ s ∧ s < 28 + 4 → False by omega)]
    simp [shardAddr, variantBoard, show s / 4 = 1 by omega, show s % 4 = s - 4 by omega]
  · rw [if_pos (show s < 32 by omega),
        if_neg (show 0 ≤ s ∧ s < 0 + 4 → False by omega),
        if_neg (show 4 ≤ s ∧ s < 4 + 4 → False by omega),
        if_pos (show 8 ≤ s ∧ s < 8 + 4 by omega),
        if_neg (show 12 ≤ s ∧ s < 12 + 4 → False by omega),
        if_neg (show 16 ≤ s ∧ s < 16 + 4 → False by omega),
        if_neg (show 20 ≤ s ∧ s < 20 + 4 → False by omega),
        if_neg (show 24 ≤ s ∧ s < 24 + 4 → False by omega),
        if_neg (show 28 ≤ s ∧ s < 28 + 4 → False by omega)]
    simp [shardAddr, variantBoard, show s / 4 = 2 by omega, show s % 4 = s - 8 by omega]
  · rw [if_pos (show s < 32 by omega),
        if_neg (show 0 ≤ s ∧ s < 0 + 4 → False by omega),
        if_neg (show 4 ≤ s ∧ s < 4 + 4 → False by omega),
        if_neg (show 8 ≤ s ∧ s < 8 + 4 → False by omega),
        if_pos (show 12 ≤ s ∧ s < 12 + 4 by omega),
        if_neg (show 16 ≤ s ∧ s < 16 + 4 → False by omega),
        if_neg (show 20 ≤ s ∧ s < 20 + 4 → False by omega),
        if_neg (show 24 ≤ s ∧ s < 24 + 4 → False by omega),
        if_neg (show 28 ≤ s ∧ s < 28 + 4 → False by omega)]
    simp [shardAddr, variantBoard, show s / 4 = 3 by omega, show s % 4 = s - 12 by omega]
  · rw [if_pos (show s < 32 by omega),
        if_neg (show 0 ≤ s ∧ s < 0 + 4 → False by omega),
        if_neg (show 4 ≤ s ∧ s < 4 + 4 → False by omega),
        if_neg (show 8 ≤ s ∧ s < 8 + 4 → False by omega),
        if_neg (show 12 ≤ s ∧ s < 12 + 4 → False by omega),
        if_pos (show 16 ≤ s ∧ s < 16 + 4 by omega),
        if_neg (show 20 ≤ s ∧ s < 20 + 4 → False by omega),
        if_neg (show 24 ≤ s ∧ s < 24 + 4 → False by omega),
        if_neg (show 28 ≤ s ∧ s < 28 + 4 → False by omega)]
    simp [shardAddr, variantBoard, show s / 4 = 4 by omega, show s % 4 = s - 16 by omega]
  · rw [if_pos (show s < 32 by omega),
        if_neg (show 0 ≤ s ∧ s < 0 + 4 → False by omega),
        if_neg (show 4 ≤ s ∧ s < 4 + 4 → False by omega),
        if_neg (show 8 ≤ s ∧ s < 8 + 4 → False by omega),
        if_neg (show 12 ≤ s ∧ s < 12 + 4 → False by omega),
        if_neg (show 16 ≤ s ∧ s < 16 + 4 → False by omega),
        if_pos (show 20 ≤ s ∧ s < 20 + 4 by omega),
        if_neg (show 24 ≤ s ∧ s < 24 + 4 → False by omega),
        if_neg (show 28 ≤ s ∧ s < 28 + 4 → False by omega)]
    simp [shardAddr, variantBoard, show s / 4 = 5 by omega, show s % 4 = s - 20 by omega]
  · rw [if_pos (show s < 32 by omega),
        if_neg (show 0 ≤ s ∧ s < 0 + 4 → False by omega),
        if_neg (show 4 ≤ s ∧ s < 4 + 4 → False by omega),
        if_neg (show 8 ≤ s ∧ s < 8 + 4 → False by omega),
        if_neg (show 12 ≤ s ∧ s < 12 + 4 → False by omega),
        if_neg (show 16 ≤ s ∧ s < 16 + 4 → False by omega),
        if_neg (show 20 ≤ s ∧ s < 20 + 4 → False by omega),
        if_pos (show 24 ≤ s ∧ s < 24 + 4 by omega),
        if_neg (show 28 ≤ s ∧ s < 28 + 4 → False by omega)]
    simp [shardAddr, variantBoard, show s / 4 = 6 by omega, show s % 4 = s - 24 by omega]
  · rw [if_pos (show s < 32 by omega),
        if_neg (show 0 ≤ s ∧ s < 0 + 4 → False by omega),
        if_neg (show 4 ≤ s ∧ s < 4 + 4 → False by omega),
        if_neg (show 8 ≤ s ∧ s < 8 + 4 → False by omega),
        if_neg (show 12 ≤ s ∧ s < 12 + 4 → False by omega),
        if_neg (show 16 ≤ s ∧ s < 16 + 4 → False by omega),
        if_neg (show 20 ≤ s ∧ s < 20 + 4 → False by omega),
        if_neg (show 24 ≤ s ∧ s < 24 + 4 → False by omega),
        if_pos (show 28 ≤ s ∧ s < 28 + 4 by omega)]
    simp [shardAddr, variantBoard, show s / 4 = 7 by omega, show s % 4 = s - 28 by omega]
  · rw [if_neg (show s < 32 → False by omega),
        if_neg (show 0 ≤ s ∧ s < 0 + 4 → False by omega),
        if_neg (show 4 ≤ s ∧ s < 4 + 4 → False by omega),
        if_neg (show 8 ≤ s ∧ s < 8 + 4 → False by omega),
        if_neg (show 12 ≤ s ∧ s < 12 + 4 → False by omega),
        if_neg (show 16 ≤ s ∧ s < 16 + 4 → False by omega),
        if_neg (show 20 ≤ s ∧ s < 20 + 4 → False by omega),
        if_neg (show 24 ≤ s ∧ s < 24 + 4 → False by omega),
        if_neg (show 28 ≤ s ∧ s < 28 + 4 → False by omega)]
    ring
end ThreesTD.six_tuple_agent

namespace ThreesTD.four_tuple_agent

open ThreesTD

/-- The packed address that shard `s` (0..7) is read and written at: shards
0..3 take the row tuples, shards 4..7 the column tuples.  Characterisation
helper for the shard access pattern. -/
def rowColAddr (b : Board) (s : Nat) : Nat :=
  if s < 4 then net_index (b (4 * s)) (b (4 * s + 1)) (b (4 * s + 2)) (b (4 * s + 3))
  else net_index (b (s - 4)) (b (s - 4 + 4)) (b (s - 4 + 8)) (b (s - 4 + 12))

lemma update_net_four_apply (net : Net) (b : Board) (v : ℚ) (s a : Nat) :
    update_net net b v s a
      = net s a + (if s < 8 then (if a = rowColAddr b s then v else 0) else 0) := by
  simp only [update_net, pointAdd]
  have hcase : s = 0 ∨ s = 1 ∨ s = 2 ∨ s = 3 ∨ s = 4 ∨ s = 5 ∨ s = 6 ∨ s = 7 ∨ 8 ≤ s := by
    omega
  rcases hcase with h | h | h | h | h | h | h | h | h
  · subst h; simp [rowColAddr] <;> split_ifs <;> ring
  · subst h; simp [rowColAddr] <;> split_ifs <;> ring
  · subst h; simp [rowColAddr] <;> split_ifs <;> ring
  · subst h; simp [rowColAddr] <;> split_ifs <;> ring
  · subst h; simp [rowColAddr] <;> split_ifs <;> ring
  · subst h; simp [rowColAddr] <;> split_ifs <;> ring
  · subst h; simp [rowColAddr] <;> split_ifs <;> ring
  · subst h; simp [rowColAddr] <;> split_ifs <;> ring
  · simp [rowColAddr, show ¬(s = 0) by omega, show ¬(s = 1) by omega,
      show ¬(s = 2) by omega, show ¬(s = 3) by omega, show ¬(s = 4) by omega,
      show ¬(s = 5) by omega, show ¬(s = 6) by omega, show ¬(s = 7) by omega,
      show ¬(s < 8) by omega]

/-- Reading `calculate_state_value` after `update_net` on the same board adds
the update value once per shard: the 8 active entries lie in 8 distinct
shards. -/
lemma calc_update_four (net : Net) (b : Board) (v : ℚ) :
    calculate_state_value (update_net net b v) b = calculate_state_value net b + 8 * v := by
  simp [calculate_state_value, update_net_four_apply, rowColAddr]
  ring

end ThreesTD.four_tuple_agent

namespace ThreesTD

/-- If each step of the backward loop adds `g k` pointwise to the table
store, the whole loop adds the sum of the `g i` over the processed indices. -/
lemma closeLoop_add (f : Nat → Net → Net) (g : Nat → Nat → Nat → ℚ)
    (hf : ∀ k net s a, f k net s a = net s a + g k s a) :
    ∀ (k : Nat) (net : Net) (s a : Nat),
      closeLoop f k net s a = net s a + ∑ i ∈ Finset.range k, g i s a := by
  intro k
  induction k with
  | zero => intro net s a; simp [closeLoop]
  | succ n ih =>
    intro net s a
    rw [closeLoop, ih, hf, Finset.sum_range_succ]
    ring

/-- Bitwise-or of a value below `2^n` with a left shift by `n` is plain
addition: the packed nibbles occupy disjoint bit ranges. -/
lemma lor_shiftLeft_eq_add (n x y : Nat) (hx : x < 2 ^ n) :
    x ||| (y <<< n) = x + y * 2 ^ n := by
  rw [Nat.shiftLeft_eq, mul_comm y (2 ^ n), Nat.lor_comm, ← Nat.mul_add_lt_is_or hx y,
    Nat.add_comm]

end ThreesTD

namespace ThreesTD.six_tuple_agent

open ThreesTD

/-- Reading `calculate_state_value` after `update_net` on the same board adds
the update value once per shard: the 32 active entries lie in 32 distinct
shards. -/
lemma calc_update_six (net : Net) (b : Board) (v : ℚ) :
    calculate_state_value (update_net net b v) b = calculate_state_value net b + 32 * v := by
  simp [calculate_state_value, calcBlock, update_net_apply, shardAddr, variantBoard]
  ring

end ThreesTD.six_tuple_agent

namespace ThreesTD.six_tuple_agent

open ThreesTD

/-- The reward-inclusive evaluation `value(afterstate) + reward` that
`six_tuple_agent::take_action` uses to compare candidate directions. -/
def action_value (slide : Board → Nat → Int × Board) (net : Net) (b : Board)
    (op : Nat) : ℚ :=
  calculate_state_value net ((slide b op).2) + ((slide b op).1 : ℚ)

/-- Invariant of the direction-selection loop after processing the prefix
`done` of the opcode list: either nothing legal has been seen and the
candidate is still the initial one, or the candidate is the first
direction attaining the maximum evaluation among the legal processed ones. -/
def SelInv (slide : Board → Nat → Int × Board) (net : Net) (b : Board)
    (done : List Nat) (s : SelState) : Prop :=
  (s = ⟨-1, -1, -1000, -1000, fun _ => 0⟩ ∧ ∀ x ∈ done, (slide b x).1 = -1) ∨
  (∃ d ∈ done, (slide b d).1 ≠ -1 ∧ s.best_action = (d : Int) ∧
    s.best_reward = (slide b d).1 ∧ s.best_after = (slide b d).2 ∧
    s.best_episode_after_state_value = calculate_state_value net ((slide b d).2) ∧
    s.best_after_state_value = action_value slide net b d ∧
    (∀ x ∈ done, (slide b x).1 ≠ -1 →
      action_value slide net b x ≤ action_value slide net b d) ∧
    (∀ x ∈ done, (slide b x).1 ≠ -1 → x < d →
      action_value slide net b x < action_value slide net b d))

lemma step_inv_six (slide : Board → Nat → Int × Board) (net : Net) (b : Board)
    (done : List Nat) (op : Nat) (s : SelState)
    (hI : SelInv slide net b done s) (hlt : ∀ x ∈ done, x < op) :
    SelInv slide net b (done ++ [op]) (step slide net b s op) := by
  by_cases hleg : (slide b op).1 = -1
  · have hstep : step slide net b s op = s := by
      simp only [step]
      rw [if_pos hleg]
    rw [hstep]
    rcases hI with ⟨hs, hnone⟩ | ⟨d, hd, hdleg, hba, hbr, hbb, hbe, hbv, hmax, hfirst⟩
    · refine Or.inl ⟨hs, ?_⟩
      intro x hx
      rcases List.mem_append.mp hx with hx' | hx'
      · exact hnone x hx'
      · rw [List.mem_singleton.mp hx']; exact hleg
    · refine Or.inr ⟨d, List.mem_append_left _ hd, hdleg, hba, hbr, hbb, hbe, hbv, ?_, ?_⟩
      · intro x hx hxleg
        rcases List.mem_append.mp hx with hx' | hx'
        · exact hmax x hx' hxleg
        · have hxop := List.mem_singleton.mp hx'; subst hxop
          exact absurd hleg hxleg
      · intro x hx hxleg hxd
        rcases List.mem_append.mp hx with hx' | hx'
        · exact hfirst x hx' hxleg hxd
        · have hxop := List.mem_singleton.mp hx'; subst hxop
          exact absurd hleg hxleg
  · simp only [step]
    rw [if_neg hleg]
    rcases hI with ⟨hs, hnone⟩ | ⟨d, hd, hdleg, hba, hbr, hbb, hbe, hbv, hmax, hfirst⟩
    · subst hs
      rw [if_pos (Or.inr rfl)]
      refine Or.inr ⟨op, by simp, hleg, rfl, rfl, rfl, rfl, rfl, ?_, ?_⟩
      · intro x hx hxleg
        rcases List.mem_append.mp hx with hx' | hx'
        · exact absurd (hnone x hx') hxleg
        · have hxop := List.mem_singleton.mp hx'; subst hxop
          exact le_refl _
      · intro x hx hxleg hxd
        rcases List.mem_append.mp hx with hx' | hx'
        · exact absurd (hnone x hx') hxleg
        · have hxop := List.mem_singleton.mp hx'; subst hxop
          exact absurd hxd (lt_irrefl _)
    · have hrne : s.best_reward ≠ -1 := by rw [hbr]; exact hdleg
      by_cases hgt : calculate_state_value net ((slide b op).2) + ((slide b op).1 : ℚ)
          > s.best_after_state_value
      · rw [if_pos (Or.inl hgt)]
        have hgt' : action_value slide net b d < action_value slide net b op := by
          rw [← hbv]; exact hgt
        refine Or.inr ⟨op, by simp, hleg, rfl, rfl, rfl, rfl, rfl, ?_, ?_⟩
        · intro x hx hxleg
          rcases List.mem_append.mp hx with hx' | hx'
          · exact le_of_lt (lt_of_le_of_lt (hmax x hx' hxleg) hgt')
          · have hxop := List.mem_singleton.mp hx'; subst hxop
            exact le_refl _
        · intro x hx hxleg hxd
          rcases List.mem_append.mp hx with hx' | hx'
          · exact lt_of_le_of_lt (hmax x hx' hxleg) hgt'
          · have hxop := List.mem_singleton.mp hx'; subst hxop
            exact absurd hxd (lt_irrefl _)
      · have hcond : ¬(calculate_state_value net ((slide b op).2) + ((slide b op).1 : ℚ)
            > s.best_after_state_value ∨ s.best_reward = -1) := by
          rintro (hc | hc)
          · exact hgt hc
          · exact hrne hc
        rw [if_neg hcond]
        refine Or.inr ⟨d, List.mem_append_left _ hd, hdleg, hba, hbr, hbb, hbe, hbv, ?_, ?_⟩
        · intro x hx hxleg
          rcases List.mem_append.mp hx with hx' | hx'
          · exact hmax x hx' hxleg
          · have hxop := List.mem_singleton.mp hx'; subst hxop
            have hle : action_value slide net b x ≤ s.best_after_state_value :=
              le_of_not_lt hgt
            rw [hbv] at hle
            exact hle
        · intro x hx hxleg hxd
          rcases List.mem_append.mp hx with hx' | hx'
          · exact hfirst x hx' hxleg hxd
          · have hxop := List.mem_singleton.mp hx'; subst hxop
            have hdo := hlt d hd
            omega
lemma fold_inv_six (slide : Board → Nat → Int × Board) (net : Net) (b : Board) :
    ∀ (rest done : List Nat) (s : SelState), SelInv slide net b done s →
      (∀ x ∈ done, ∀ y ∈ rest, x < y) → List.Pairwise (· < ·) rest →
      SelInv slide net b (done ++ rest) (rest.foldl (step slide net b) s) := by
  intro rest
  induction rest with
  | nil => intro done s hI _ _; simpa using hI
  | cons r rest ih =>
    intro done s hI hcross hpw
    simp only [List.foldl_cons]
    have h1 : SelInv slide net b (done ++ [r]) (step slide net b s r) :=
      step_inv_six slide net b done r s hI (fun x hx => hcross x hx r (by simp))
    have h2 : ∀ x ∈ done ++ [r], ∀ y ∈ rest, x < y := by
      intro x hx y hy
      rcases List.mem_append.mp hx with hx' | hx'
      · exact hcross x hx' y (by simp [hy])
      · have hxr := List.mem_singleton.mp hx'; subst hxr
        exact (List.pairwise_cons.mp hpw).1 y hy
    have h3 := ih (done ++ [r]) (step slide net b s r) h1 h2 (List.pairwise_cons.mp hpw).2
    simpa [List.append_assoc] using h3

lemma sel_result_six (slide : Board → Nat → Int × Board) (net : Net) (b : Board) :
    SelInv slide net b [0, 1, 2, 3]
      ([0, 1, 2, 3].foldl (step slide net b) ⟨-1, -1, -1000, -1000, fun _ => 0⟩) := by
  have h := fold_inv_six slide net b [0, 1, 2, 3] [] ⟨-1, -1, -1000, -1000, fun _ => 0⟩
    (Or.inl ⟨rfl, by simp⟩) (by simp) (by decide)
  simpa using h

lemma take_action_reject_six (slide : Board → Nat → Int × Board) (st : AgentState)
    (b : Board) (h : ∀ x ∈ [0, 1, 2, 3], (slide b x).1 = -1) :
    take_action slide st b = (none, st) := by
  rcases sel_result_six slide st.net b with ⟨hs, _⟩ | ⟨d, hd, hdleg, _⟩
  · simp only [take_action]
    rw [hs]
    simp
  · exact absurd (h d hd) hdleg

lemma take_action_accept_six (slide : Board → Nat → Int × Board) (st : AgentState)
    (b : Board) (h : ∃ x ∈ [0, 1, 2, 3], (slide b x).1 ≠ -1) :
    ∃ d, d ∈ [0, 1, 2, 3] ∧ (slide b d).1 ≠ -1 ∧
      take_action slide st b = (some (d : Int),
        { st with
          episode_boards := st.episode_boards ++ [(slide b d).2],
          episode_rewards := st.episode_rewards ++ [(slide b d).1],
          episode_values := st.episode_values
            ++ [truncTowardZero (calculate_state_value st.net ((slide b d).2))] }) ∧
      (∀ x ∈ [0, 1, 2, 3], (slide b x).1 ≠ -1 →
        action_value slide st.net b x ≤ action_value slide st.net b d) ∧
      (∀ x ∈ [0, 1, 2, 3], (slide b x).1 ≠ -1 → x < d →
        action_value slide st.net b x < action_value slide st.net b d) := by
  rcases sel_result_six slide st.net b with ⟨hs, hnone⟩ |
    ⟨d, hd, hdleg, hba, hbr, hbb, hbe, hbv, hmax, hfirst⟩
  · obtain ⟨x, hx, hxleg⟩ := h
    exact absurd (hnone x hx) hxleg
  · refine ⟨d, hd, hdleg, ?_, hmax, hfirst⟩
    simp only [take_action]
    rw [if_pos (show _ ≠ (-1 : Int) by rw [hbr]; exact hdleg)]
    rw [hba, hbr, hbb, hbe]

end ThreesTD.six_tuple_agent

namespace ThreesTD.four_tuple_agent

open ThreesTD

/-- The reward-inclusive evaluation `value(afterstate) + reward` that
`four_tuple_agent::take_action` uses to compare candidate directions — and,
unlike the six-tuple agent, also pushes onto the episode value trace. -/
def action_value (slide : Board → Nat → Int × Board) (net : Net) (b : Board)
    (op : Nat) : ℚ :=
  calculate_state_value net ((slide b op).2) + ((slide b op).1 : ℚ)

/-- Invariant of the direction-selection loop after processing the prefix
`done` of the opcode list (four-tuple agent). -/
def SelInvFour (slide : Board → Nat → Int × Board) (net : Net) (b : Board)
    (done : List Nat) (s : SelState) : Prop :=
  (s = ⟨-1, -1, -1000, fun _ => 0⟩ ∧ ∀ x ∈ done, (slide b x).1 = -1) ∨
  (∃ d ∈ done, (slide b d).1 ≠ -1 ∧ s.best_action = (d : Int) ∧
    s.best_reward = (slide b d).1 ∧ s.best_after = (slide b d).2 ∧
    s.best_after_state_value = action_value slide net b d ∧
    (∀ x ∈ done, (slide b x).1 ≠ -1 →
      action_value slide net b x ≤ action_value slide net b d) ∧
    (∀ x ∈ done, (slide b x).1 ≠ -1 → x < d →
      action_value slide net b x < action_value slide net b d))

lemma step_inv_four (slide : Board → Nat → Int × Board) (net : Net) (b : Board)
    (done : List Nat) (op : Nat) (s : SelState)
    (hI : SelInvFour slide net b done s) (hlt : ∀ x ∈ done, x < op) :
    SelInvFour slide net b (done ++ [op]) (step slide net b s op) := by
  by_cases hleg : (slide b op).1 = -1
  · have hstep : step slide net b s op = s := by
      simp only [step]
      rw [if_pos hleg]
    rw [hstep]
    rcases hI with ⟨hs, hnone⟩ | ⟨d, hd, hdleg, hba, hbr, hbb, hbv, hmax, hfirst⟩
    · refine Or.inl ⟨hs, ?_⟩
      intro x hx
      rcases List.mem_append.mp hx with hx' | hx'
      · exact hnone x hx'
      · rw [List.mem_singleton.mp hx']; exact hleg
    · refine Or.inr ⟨d, List.mem_append_left _ hd, hdleg, hba, hbr, hbb, hbv, ?_, ?_⟩
      · intro x hx hxleg
        rcases List.mem_append.mp hx with hx' | hx'
        · exact hmax x hx' hxleg
        · have hxop := List.mem_singleton.mp hx'; subst hxop
          exact absurd hleg hxleg
      · intro x hx hxleg hxd
        rcases List.mem_append.mp hx with hx' | hx'
        · exact hfirst x hx' hxleg hxd
        · have hxop := List.mem_singleton.mp hx'; subst hxop
          exact absurd hleg hxleg
  · simp only [step]
    rw [if_neg hleg]
    rcases hI with ⟨hs, hnone⟩ | ⟨d, hd, hdleg, hba, hbr, hbb, hbv, hmax, hfirst⟩
    · subst hs
      rw [if_pos (Or.inr rfl)]
      refine Or.inr ⟨op, by simp, hleg, rfl, rfl, rfl, rfl, ?_, ?_⟩
      · intro x hx hxleg
        rcases List.mem_append.mp hx with hx' | hx'
        · exact absurd (hnone x hx') hxleg
        · have hxop := List.mem_singleton.mp hx'; subst hxop
          exact le_refl _
      · intro x hx hxleg hxd
        rcases List.mem_append.mp hx with hx' | hx'
        · exact absurd (hnone x hx') hxleg
        · have hxop := List.mem_singleton.mp hx'; subst hxop
          exact absurd hxd (lt_irrefl _)
    · have hrne : s.best_reward ≠ -1 := by rw [hbr]; exact hdleg
      by_cases hgt : calculate_state_value net ((slide b op).2) + ((slide b op).1 : ℚ)
          > s.best_after_state_value
      · rw [if_pos (Or.inl hgt)]
        have hgt' : action_value slide net b d < action_value slide net b op := by
          rw [← hbv]; exact hgt
        refine Or.inr ⟨op, by simp, hleg, rfl, rfl, rfl, rfl, ?_, ?_⟩
        · intro x hx hxleg
          rcases List.mem_append.mp hx with hx' | hx'
          · exact le_of_lt (lt_of_le_of_lt (hmax x hx' hxleg) hgt')
          · have hxop := List.mem_singleton.mp hx'; subst hxop
            exact le_refl _
        · intro x hx hxleg hxd
          rcases List.mem_append.mp hx with hx' | hx'
          · exact lt_of_le_of_lt (hmax x hx' hxleg) hgt'
          · have hxop := List.mem_singleton.mp hx'; subst hxop
            exact absurd hxd (lt_irrefl _)
      · have hcond : ¬(calculate_state_value net ((slide b op).2) + ((slide b op).1 : ℚ)
            > s.best_after_state_value ∨ s.best_reward = -1) := by
          rintro (hc | hc)
          · exact hgt hc
          · exact hrne hc
        rw [if_neg hcond]
        refine Or.inr ⟨d, List.mem_append_left _ hd, hdleg, hba, hbr, hbb, hbv, ?_, ?_⟩
        · intro x hx hxleg
          rcases List.mem_append.mp hx with hx' | hx'
          · exact hmax x hx' hxleg
          · have hxop := List.mem_singleton.mp hx'; subst hxop
            have hle : action_value slide net b x ≤ s.best_after_state_value :=
              le_of_not_lt hgt
            rw [hbv] at hle
            exact hle
        · intro x hx hxleg hxd
          rcases List.mem_append.mp hx with hx' | hx'
          · exact hfirst x hx' hxleg hxd
          · have hxop := List.mem_singleton.mp hx'; subst hxop
            have hdo := hlt d hd
            omega

lemma fold_inv_four (slide : Board → Nat → Int × Board) (net : Net) (b : Board) :
    ∀ (rest done : List Nat) (s : SelState), SelInvFour slide net b done s →
      (∀ x ∈ done, ∀ y ∈ rest, x < y) → List.Pairwise (· < ·) rest →
      SelInvFour slide net b (done ++ rest) (rest.foldl (step slide net b) s) := by
  intro rest
  induction rest with
  | nil => intro done s hI _ _; simpa using hI
  | cons r rest ih =>
    intro done s hI hcross hpw
    simp only [List.foldl_cons]
    have h1 : SelInvFour slide net b (done ++ [r]) (step slide net b s r) :=
      step_inv_four slide net b done r s hI (fun x hx => hcross x hx r (by simp))
    have h2 : ∀ x ∈ done ++ [r], ∀ y ∈ rest, x < y := by
      intro x hx y hy
      rcases List.mem_append.mp hx with hx' | hx'
      · exact hcross x hx' y (by simp [hy])
      · have hxr := List.mem_singleton.mp hx'; subst hxr
        exact (List.pairwise_cons.mp hpw).1 y hy
    have h3 := ih (done ++ [r]) (step slide net b s r) h1 h2 (List.pairwise_cons.mp hpw).2
    simpa [List.append_assoc] using h3

lemma sel_result_four (slide : Board → Nat → Int × Board) (net : Net) (b : Board) :
    SelInvFour slide net b [0, 1, 2, 3]
      ([0, 1, 2, 3].foldl (step slide net b) ⟨-1, -1, -1000, fun _ => 0⟩) := by
  have h := fold_inv_four slide net b [0, 1, 2, 3] [] ⟨-1, -1, -1000, fun _ => 0⟩
    (Or.inl ⟨rfl, by simp⟩) (by simp) (by decide)
  simpa using h

lemma take_action_reject_four (slide : Board → Nat → Int × Board) (st : AgentState)
    (b : Board) (h : ∀ x ∈ [0, 1, 2, 3], (slide b x).1 = -1) :
    take_action slide st b = (none, st) := by
  rcases sel_result_four slide st.net b with ⟨hs, _⟩ | ⟨d, hd, hdleg, _⟩
  · simp only [take_action]
    rw [hs]
    simp
  · exact absurd (h d hd) hdleg

lemma take_action_accept_four (slide : Board → Nat → Int × Board) (st : AgentState)
    (b : Board) (h : ∃ x ∈ [0, 1, 2, 3], (slide b x).1 ≠ -1) :
    ∃ d, d ∈ [0, 1, 2, 3] ∧ (slide b d).1 ≠ -1 ∧
      take_action slide st b = (some (d : Int),
        { st with
          episode_boards := st.episode_boards ++ [(slide b d).2],
          episode_rewards := st.episode_rewards ++ [(slide b d).1],
          episode_values := st.episode_values
            ++ [truncTowardZero (action_value slide st.net b d)] }) ∧
      (∀ x ∈ [0, 1, 2, 3], (slide b x).1 ≠ -1 →
        action_value slide st.net b x ≤ action_value slide st.net b d) ∧
      (∀ x ∈ [0, 1, 2, 3], (slide b x).1 ≠ -1 → x < d →
        action_value slide st.net b x < action_value slide st.net b d) := by
  rcases sel_result_four slide st.net b with ⟨hs, hnone⟩ |
    ⟨d, hd, hdleg, hba, hbr, hbb, hbv, hmax, hfirst⟩
  · obtain ⟨x, hx, hxleg⟩ := h
    exact absurd (hnone x hx) hxleg
  · refine ⟨d, hd, hdleg, ?_, hmax, hfirst⟩
    simp only [take_action]
    rw [if_pos (show _ ≠ (-1 : Int) by rw [hbr]; exact hdleg)]
    rw [hba, hbr, hbb, hbv]

end ThreesTD.four_tuple_agent

namespace ThreesTD

/-- `weight_agent::weight_agent`: the learning rate starts at the built-in
default `0.0125` and is overwritten by the `alpha` configuration key when
present. -/
def weight_agent_alpha (alphaCfg : Option ℚ) : ℚ :=
  let alpha : ℚ := 0.0125
  match alphaCfg with
  | some a => a
  | none => alpha

/-- `four_tuple_agent::four_tuple_agent`: the constructor body does not touch
`alpha`, so the value set by the `weight_agent` base constructor stands. -/
def four_tuple_agent_alpha (alphaCfg : Option ℚ) : ℚ :=
  weight_agent_alpha alphaCfg

/-- `six_tuple_agent::six_tuple_agent`: the constructor body runs after the
`weight_agent` base constructor and assigns `alpha = 0.1/32` unconditionally. -/
def six_tuple_agent_alpha (alphaCfg : Option ℚ) : ℚ :=
  let _alpha := weight_agent_alpha alphaCfg
  (0.1 : ℚ) / 32

/-- `weight_agent::load_weights`: `std::exit(-1)` when the stream cannot be
opened, else read a 32-bit shard count and that many shards in order.
The byte-level shard encoding lives in `weight.h` (external); a file is
modelled as its header count paired with the shard stream. -/
def load_weights (canOpen : Bool) (file : Nat × List (List ℚ)) :
    Except Int (List (List ℚ)) :=
  if canOpen then Except.ok (file.2.take file.1) else Except.error (-1)

/-- `weight_agent::save_weights`: `std::exit(-1)` when the stream cannot be
opened, else write `net.size()` as a 32-bit unsigned header followed by every
shard in table order. -/
def save_weights (canOpen : Bool) (net : List (List ℚ)) :
    Except Int (Nat × List (List ℚ)) :=
  if canOpen then Except.ok (net.length % 2 ^ 32, net) else Except.error (-1)

/-- The number of boards in an episode schedule on which some direction is
legal, i.e. on which `take_action` accepts. -/
def acceptedCount (slide : Board → Nat → Int × Board) (bs : List Board) : Nat :=
  bs.countP (fun bb => decide (∃ x ∈ [0, 1, 2, 3], (slide bb x).1 ≠ -1))

end ThreesTD

namespace ThreesTD.six_tuple_agent

open ThreesTD

/-- The caller protocol of §2 of the spec: one `take_action` call per board of
the episode schedule, feeding the evolving agent state. -/
def run_episode (slide : Board → Nat → Int × Board) (st : AgentState)
    (bs : List Board) : AgentState :=
  bs.foldl (fun s bb => (take_action slide s bb).2) st

lemma take_action_lengths_six (slide : Board → Nat → Int × Board)
    (st : AgentState) (b : Board) :
    (take_action slide st b).2.episode_boards.length
        = st.episode_boards.length
          + (if ∃ x ∈ [0, 1, 2, 3], (slide b x).1 ≠ -1 then 1 else 0)
    ∧ (take_action slide st b).2.episode_rewards.length
        = st.episode_rewards.length
          + (if ∃ x ∈ [0, 1, 2, 3], (slide b x).1 ≠ -1 then 1 else 0)
    ∧ (take_action slide st b).2.episode_values.length
        = st.episode_values.length
          + (if ∃ x ∈ [0, 1, 2, 3], (slide b x).1 ≠ -1 then 1 else 0) := by
  by_cases h : ∃ x ∈ [0, 1, 2, 3], (slide b x).1 ≠ -1
  · obtain ⟨d, _, _, heq, _, _⟩ := take_action_accept_six slide st b h
    rw [heq, if_pos h]
    simp
  · rw [take_action_reject_six slide st b (by push_neg at h; exact h), if_neg h]
    simp

lemma run_lengths_six (slide : Board → Nat → Int × Board) :
    ∀ (bs : List Board) (st : AgentState),
      (run_episode slide st bs).episode_boards.length
          = st.episode_boards.length + acceptedCount slide bs
      ∧ (run_episode slide st bs).episode_rewards.length
          = st.episode_rewards.length + acceptedCount slide bs
      ∧ (run_episode slide st bs).episode_values.length
          = st.episode_values.length + acceptedCount slide bs := by
  intro bs
  induction bs with
  | nil => intro st; simp [run_episode, acceptedCount]
  | cons bb bs ih =>
    intro st
    have hstep := take_action_lengths_six slide st bb
    have hrest := ih (take_action slide st bb).2
    have hcount : acceptedCount slide (bb :: bs)
        = acceptedCount slide bs
          + (if ∃ x ∈ [0, 1, 2, 3], (slide bb x).1 ≠ -1 then 1 else 0) := by
      simp [acceptedCount, List.countP_cons]
    simp only [run_episode, List.foldl_cons] at hrest ⊢
    rw [hcount]
    omega

end ThreesTD.six_tuple_agent

namespace ThreesTD.four_tuple_agent

open ThreesTD

/-- The caller protocol of §2 of the spec for the four-tuple agent. -/
def run_episode (slide : Board → Nat → Int × Board) (st : AgentState)
    (bs : List Board) : AgentState :=
  bs.foldl (fun s bb => (take_action slide s bb).2) st

lemma take_action_lengths_four (slide : Board → Nat → Int × Board)
    (st : AgentState) (b : Board) :
    (take_action slide st b).2.episode_boards.length
        = st.episode_boards.length
          + (if ∃ x ∈ [0, 1, 2, 3], (slide b x).1 ≠ -1 then 1 else 0)
    ∧ (take_action slide st b).2.episode_rewards.length
        = st.episode_rewards.length
          + (if ∃ x ∈ [0, 1, 2, 3], (slide b x).1 ≠ -1 then 1 else 0)
    ∧ (take_action slide st b).2.episode_values.length
        = st.episode_values.length
          + (if ∃ x ∈ [0, 1, 2, 3], (slide b x).1 ≠ -1 then 1 else 0) := by
  by_cases h : ∃ x ∈ [0, 1, 2, 3], (slide b x).1 ≠ -1
  · obtain ⟨d, _, _, heq, _, _⟩ := take_action_accept_four slide st b h
    rw [heq, if_pos h]
    simp
  · rw [take_action_reject_four slide st b (by push_neg at h; exact h), if_neg h]
    simp

lemma run_lengths_four (slide : Board → Nat → Int × Board) :
    ∀ (bs : List Board) (st : AgentState),
      (run_episode slide st bs).episode_boards.length
          = st.episode_boards.length + acceptedCount slide bs
      ∧ (run_episode slide st bs).episode_rewards.length
          = st.episode_rewards.length + acceptedCount slide bs
      ∧ (run_episode slide st bs).episode_values.length
          = st.episode_values.length + acceptedCount slide bs := by
  intro bs
  induction bs with
  | nil => intro st; simp [run_episode, acceptedCount]
  | cons bb bs ih =>
    intro st
    have hstep := take_action_lengths_four slide st bb
    have hrest := ih (take_action slide st bb).2
    have hcount : acceptedCount slide (bb :: bs)
        = acceptedCount slide bs
          + (if ∃ x ∈ [0, 1, 2, 3], (slide bb x).1 ≠ -1 then 1 else 0) := by
      simp [acceptedCount, List.countP_cons]
    simp only [run_episode, List.foldl_cons] at hrest ⊢
    rw [hcount]
    omega

end ThreesTD.four_tuple_agent

namespace ThreesTD.four_tuple_agent

open ThreesTD

lemma net_index_eq_sum (i0 i1 i2 i3 : Nat)
    (h0 : i0 < 16) (h1 : i1 < 16) (h2 : i2 < 16) (h3 : i3 < 16) :
    net_index i0 i1 i2 i3 = i0 + i1 * 16 + i2 * 256 + i3 * 4096
    ∧ net_index i0 i1 i2 i3 < 65536 := by
  have e1 := lor_shiftLeft_eq_add 4 i0 i1 (by simpa using h0)
  have e2 := lor_shiftLeft_eq_add 8 (i0 ||| i1 <<< 4) i2 (by rw [e1]; norm_num; omega)
  have e3 := lor_shiftLeft_eq_add 12 ((i0 ||| i1 <<< 4) ||| i2 <<< 8) i3
    (by rw [e2, e1]; norm_num; omega)
  have hsum : net_index i0 i1 i2 i3 = i0 + i1 * 16 + i2 * 256 + i3 * 4096 := by
    simp only [net_index]
    rw [e3, e2, e1]
    norm_num
  exact ⟨hsum, by rw [hsum]; omega⟩

/-- The order of (shard, address) pairs accessed by both
`four_tuple_agent::update_net` and `four_tuple_agent::calculate_state_value`:
row tuple then column tuple for each `i` in 0..3. -/
def access_sequence_four (b : Board) : List (Nat × Nat) :=
  [(0, net_index (b 0) (b 1) (b 2) (b 3)),
   (4, net_index (b 0) (b 4) (b 8) (b 12)),
   (1, net_index (b 4) (b 5) (b 6) (b 7)),
   (5, net_index (b 1) (b 5) (b 9) (b 13)),
   (2, net_index (b 8) (b 9) (b 10) (b 11)),
   (6, net_index (b 2) (b 6) (b 10) (b 14)),
   (3, net_index (b 12) (b 13) (b 14) (b 15)),
   (7, net_index (b 3) (b 7) (b 11) (b 15))]

lemma calc_reads_four (net : Net) (b : Board) :
    calculate_state_value net b
      = ((access_sequence_four b).map (fun p => net p.1 p.2)).sum := by
  simp [calculate_state_value, access_sequence_four]
  ring

lemma update_writes_four (net : Net) (b : Board) (v : ℚ) :
    update_net net b v
      = (access_sequence_four b).foldl (fun n p => pointAdd n p.1 p.2 v) net := by
  rfl

lemma shards_four (b : Board) :
    (access_sequence_four b).map Prod.fst = [0, 4, 1, 5, 2, 6, 3, 7] := by
  rfl

end ThreesTD.four_tuple_agent

namespace ThreesTD.six_tuple_agent

open ThreesTD

lemma tuple_address_eq_sum (fb : Board) (t : List Nat) (h : ∀ p, fb p < 16) :
    tuple_address fb t
      = fb (t.getD 0 0) + fb (t.getD 1 0) * 16 + fb (t.getD 2 0) * 256
        + fb (t.getD 3 0) * 4096 + fb (t.getD 4 0) * 65536 + fb (t.getD 5 0) * 1048576
    ∧ tuple_address fb t < 16777216 := by
  have hv0 := h (t.getD 0 0)
  have hv1 := h (t.getD 1 0)
  have hv2 := h (t.getD 2 0)
  have hv3 := h (t.getD 3 0)
  have hv4 := h (t.getD 4 0)
  have hv5 := h (t.getD 5 0)
  have p4 : (2 : Nat) ^ 4 = 16 := by norm_num
  have p8 : (2 : Nat) ^ 8 = 256 := by norm_num
  have p12 : (2 : Nat) ^ 12 = 4096 := by norm_num
  have p16 : (2 : Nat) ^ 16 = 65536 := by norm_num
  have p20 : (2 : Nat) ^ 20 = 1048576 := by norm_num
  have e1 := lor_shiftLeft_eq_add 4 (fb (t.getD 0 0)) (fb (t.getD 1 0)) (by rw [p4]; omega)
  have e2 := lor_shiftLeft_eq_add 8 (fb (t.getD 0 0) ||| fb (t.getD 1 0) <<< 4)
    (fb (t.getD 2 0)) (by rw [e1, p4, p8]; omega)
  have e3 := lor_shiftLeft_eq_add 12
    ((fb (t.getD 0 0) ||| fb (t.getD 1 0) <<< 4) ||| fb (t.getD 2 0) <<< 8)
    (fb (t.getD 3 0)) (by rw [e2, e1, p4, p8, p12]; omega)
  have e4 := lor_shiftLeft_eq_add 16
    (((fb (t.getD 0 0) ||| fb (t.getD 1 0) <<< 4) ||| fb (t.getD 2 0) <<< 8)
      ||| fb (t.getD 3 0) <<< 12)
    (fb (t.getD 4 0)) (by rw [e3, e2, e1, p4, p8, p12, p16]; omega)
  have e5 := lor_shiftLeft_eq_add 20
    ((((fb (t.getD 0 0) ||| fb (t.getD 1 0) <<< 4) ||| fb (t.getD 2 0) <<< 8)
      ||| fb (t.getD 3 0) <<< 12) ||| fb (t.getD 4 0) <<< 16)
    (fb (t.getD 5 0)) (by rw [e4, e3, e2, e1, p4, p8, p12, p16, p20]; omega)
  have hsum : tuple_address fb t
      = fb (t.getD 0 0) + fb (t.getD 1 0) * 16 + fb (t.getD 2 0) * 256
        + fb (t.getD 3 0) * 4096 + fb (t.getD 4 0) * 65536 + fb (t.getD 5 0) * 1048576 := by
    simp only [tuple_address]
    rw [e5, e4, e3, e2, e1, p4, p8, p12, p16, p20]
  exact ⟨hsum, by rw [hsum]; omega⟩

/-- The order of (shard, address) pairs accessed by both
`six_tuple_agent::update_net` and `six_tuple_agent::calculate_state_value`:
the 8 variants (original, three clockwise rotations, horizontal reflection,
its three clockwise rotations) crossed with the 4 base tuples, shards 0..31. -/
def access_sequence_six (b : Board) : List (Nat × Nat) :=
  [(0, tuple_address b (tuple_index 0)),
   (1, tuple_address b (tuple_index 1)),
   (2, tuple_address b (tuple_index 2)),
   (3, tuple_address b (tuple_index 3)),
   (4, tuple_address (rotate_clockwise b) (tuple_index 0)),
   (5, tuple_address (rotate_clockwise b) (tuple_index 1)),
   (6, tuple_address (rotate_clockwise b) (tuple_index 2)),
   (7, tuple_address (rotate_clockwise b) (tuple_index 3)),
   (8, tuple_address (rotate_clockwise (rotate_clockwise b)) (tuple_index 0)),
   (9, tuple_address (rotate_clockwise (rotate_clockwise b)) (tuple_index 1)),
   (10, tuple_address (rotate_clockwise (rotate_clockwise b)) (tuple_index 2)),
   (11, tuple_address (rotate_clockwise (rotate_clockwise b)) (tuple_index 3)),
   (12, tuple_address (rotate_clockwise (rotate_clockwise (rotate_clockwise b))) (tuple_index 0)),
   (13, tuple_address (rotate_clockwise (rotate_clockwise (rotate_clockwise b))) (tuple_index 1)),
   (14, tuple_address (rotate_clockwise (rotate_clockwise (rotate_clockwise b))) (tuple_index 2)),
   (15, tuple_address (rotate_clockwise (rotate_clockwise (rotate_clockwise b))) (tuple_index 3)),
   (16, tuple_address (reflect_horizontal b) (tuple_index 0)),
   (17, tuple_address (reflect_horizontal b) (tuple_index 1)),
   (18, tuple_address (reflect_horizontal b) (tuple_index 2)),
   (19, tuple_address (reflect_horizontal b) (tuple_index 3)),
   (20, tuple_address (rotate_clockwise (reflect_horizontal b)) (tuple_index 0)),
   (21, tuple_address (rotate_clockwise (reflect_horizontal b)) (tuple_index 1)),
   (22, tuple_address (rotate_clockwise (reflect_horizontal b)) (tuple_index 2)),
   (23, tuple_address (rotate_clockwise (reflect_horizontal b)) (tuple_index 3)),
   (24, tuple_address (rotate_clockwise (rotate_clockwise (reflect_horizontal b))) (tuple_index 0)),
   (25, tuple_address (rotate_clockwise (rotate_clockwise (reflect_horizontal b))) (tuple_index 1)),
   (26, tuple_address (rotate_clockwise (rotate_clockwise (reflect_horizontal b))) (tuple_index 2)),
   (27, tuple_address (rotate_clockwise (rotate_clockwise (reflect_horizontal b))) (tuple_index 3)),
   (28, tuple_address (rotate_clockwise (rotate_clockwise (rotate_clockwise (reflect_horizontal b)))) (tuple_index 0)),
   (29, tuple_address (rotate_clockwise (rotate_clockwise (rotate_clockwise (reflect_horizontal b)))) (tuple_index 1)),
   (30, tuple_address (rotate_clockwise (rotate_clockwise (rotate_clockwise (reflect_horizontal b)))) (tuple_index 2)),
   (31, tuple_address (rotate_clockwise (rotate_clockwise (rotate_clockwise (reflect_horizontal b)))) (tuple_index 3))]

lemma calc_reads_six (net : Net) (b : Board) :
    calculate_state_value net b
      = ((access_sequence_six b).map (fun p => net p.1 p.2)).sum := by
  simp [calculate_state_value, calcBlock, access_sequence_six]
  ring

lemma update_writes_six (net : Net) (b : Board) (v : ℚ) :
    update_net net b v
      = (access_sequence_six b).foldl (fun n p => pointAdd n p.1 p.2 v) net := by
  rfl

lemma shards_six (b : Board) :
    (access_sequence_six b).map Prod.fst = List.range 32 := by
  rfl

end ThreesTD.six_tuple_agent

namespace ThreesTD

/-- An all-empty board. -/
def cBoard : Board := fun _ => 0

/-- The all-zero freshly initialised weight table store. -/
def cNetZero : Net := fun _ _ => 0

/-- A weight table store with every entry `1/3` (a non-integer value). -/
def cNetThird : Net := fun _ _ => (1 : ℚ) / 3

/-- A fresh agent state with zero tables and empty traces. -/
def cState : AgentState := ⟨cNetZero, [], [], []⟩

/-- A fresh agent state over the `1/3`-valued tables. -/
def cStateThird : AgentState := ⟨cNetThird, [], [], []⟩

/-- A board-engine stub on which only direction 0 is legal, with reward 3. -/
def cSlideOnly0 : Board → Nat → Int × Board :=
  fun _ op => if op = 0 then (3, fun _ => 0) else (-1, fun _ => 0)

/-- A board-engine stub on which every direction is legal with reward 1 and
the same afterstate: all four evaluations tie. -/
def cSlideAll : Board → Nat → Int × Board :=
  fun _ _ => (1, fun _ => 0)

/-- A board-engine stub on which no direction is legal (terminal board). -/
def cSlideNone : Board → Nat → Int × Board :=
  fun _ _ => (-1, fun _ => 0)

end ThreesTD

namespace ThreesTD

open ThreesTD

/-- C1 (counterexample): on a fresh four-tuple agent and a board whose only
legal direction is 0 with slide reward 3, the value appended to
`episode_values` by `take_action` is not the raw afterstate value of the
chosen move (the agent appends `3 = value + reward`, while the raw value of
the chosen afterstate is `0`). -/
theorem C1_counterexample :
    (four_tuple_agent.take_action cSlideOnly0 cState cBoard).2.episode_values
      ≠ cState.episode_values
        ++ [truncTowardZero (four_tuple_agent.calculate_state_value cState.net
            ((cSlideOnly0 cBoard 0).2))] := by
  have h1 : (four_tuple_agent.take_action cSlideOnly0 cState cBoard).2.episode_values = [3] := by
    norm_num [four_tuple_agent.take_action, four_tuple_agent.step, cSlideOnly0, cState, cBoard,
      cNetZero, four_tuple_agent.calculate_state_value, four_tuple_agent.net_index,
      truncTowardZero]
  have h2 : truncTowardZero (four_tuple_agent.calculate_state_value cState.net
      ((cSlideOnly0 cBoard 0).2)) = 0 := by
    norm_num [four_tuple_agent.calculate_state_value, four_tuple_agent.net_index, cState,
      cNetZero, cSlideOnly0, truncTowardZero]
  rw [h1, h2]
  simp [cState]

/-- C1 (amended): whenever some direction is legal, the `six_tuple_agent`
appends to `episode_values` the (int-truncated) raw afterstate value
`calculate_state_value(afterstate)` of the chosen move, without the slide
reward; the `four_tuple_agent` instead appends the (int-truncated)
reward-inclusive evaluation `calculate_state_value(afterstate) + reward`. -/
theorem C1_amended (slide : Board → Nat → Int × Board) (st : AgentState) (b : Board)
    (h : ∃ x ∈ [0, 1, 2, 3], (slide b x).1 ≠ -1) :
    (∃ d, d ∈ [0, 1, 2, 3] ∧ (slide b d).1 ≠ -1 ∧
      six_tuple_agent.take_action slide st b = (some (d : Int),
        { st with
          episode_boards := st.episode_boards ++ [(slide b d).2],
          episode_rewards := st.episode_rewards ++ [(slide b d).1],
          episode_values := st.episode_values
            ++ [truncTowardZero (six_tuple_agent.calculate_state_value st.net
                ((slide b d).2))] }))
    ∧ (∃ d, d ∈ [0, 1, 2, 3] ∧ (slide b d).1 ≠ -1 ∧
      four_tuple_agent.take_action slide st b = (some (d : Int),
        { st with
          episode_boards := st.episode_boards ++ [(slide b d).2],
          episode_rewards := st.episode_rewards ++ [(slide b d).1],
          episode_values := st.episode_values
            ++ [truncTowardZero (four_tuple_agent.action_value slide st.net b d)] })) := by
  obtain ⟨d6, hd6, hleg6, heq6, _, _⟩ := six_tuple_agent.take_action_accept_six slide st b h
  obtain ⟨d4, hd4, hleg4, heq4, _, _⟩ := four_tuple_agent.take_action_accept_four slide st b h
  exact ⟨⟨d6, hd6, hleg6, heq6⟩, ⟨d4, hd4, hleg4, heq4⟩⟩

/-- C1 (witness): the amended claim at the concrete only-direction-0 slide
stub over a fresh agent state. -/
theorem C1_amended_witness :
    (∃ x ∈ [0, 1, 2, 3], (cSlideOnly0 cBoard x).1 ≠ -1) ∧
    ((∃ d, d ∈ [0, 1, 2, 3] ∧ (cSlideOnly0 cBoard d).1 ≠ -1 ∧
      six_tuple_agent.take_action cSlideOnly0 cState cBoard = (some (d : Int),
        { cState with
          episode_boards := cState.episode_boards ++ [(cSlideOnly0 cBoard d).2],
          episode_rewards := cState.episode_rewards ++ [(cSlideOnly0 cBoard d).1],
          episode_values := cState.episode_values
            ++ [truncTowardZero (six_tuple_agent.calculate_state_value cState.net
                ((cSlideOnly0 cBoard d).2))] }))
    ∧ (∃ d, d ∈ [0, 1, 2, 3] ∧ (cSlideOnly0 cBoard d).1 ≠ -1 ∧
      four_tuple_agent.take_action cSlideOnly0 cState cBoard = (some (d : Int),
        { cState with
          episode_boards := cState.episode_boards ++ [(cSlideOnly0 cBoard d).2],
          episode_rewards := cState.episode_rewards ++ [(cSlideOnly0 cBoard d).1],
          episode_values := cState.episode_values
            ++ [truncTowardZero (four_tuple_agent.action_value cSlideOnly0 cState.net
                cBoard d)] }))) :=
  ⟨by decide, C1_amended cSlideOnly0 cState cBoard (by decide)⟩

end ThreesTD

namespace ThreesTD

/-- C2: `close_episode` (both agents) appends a terminal reward 0 and value 0,
leaving the board sequence alone; the table store after the backward loop
equals the original store plus, for each recorded position `i` (terminal
sentinel excluded), the TD update value `alpha * (value[i+1] + reward[i+1]
- value[i])` — computed from the original, padded sequences — added to every
entry active for `board[i]`; and the loop visits positions strictly
back-to-front (`closeLoop f (k+1)` steps at index `k` first). -/
theorem C2_close_episode (alpha : ℚ) (st : AgentState) (s a : Nat) :
    (six_tuple_agent.close_episode alpha st).episode_rewards = st.episode_rewards ++ [0]
    ∧ (six_tuple_agent.close_episode alpha st).episode_values = st.episode_values ++ [0]
    ∧ (six_tuple_agent.close_episode alpha st).episode_boards = st.episode_boards
    ∧ (four_tuple_agent.close_episode alpha st).episode_rewards = st.episode_rewards ++ [0]
    ∧ (four_tuple_agent.close_episode alpha st).episode_values = st.episode_values ++ [0]
    ∧ (four_tuple_agent.close_episode alpha st).episode_boards = st.episode_boards
    ∧ (∀ (v r : List Int) (i : Nat), tdDelta alpha v r i
        = alpha * ((v.getD (i + 1) 0 + r.getD (i + 1) 0 - v.getD i 0 : ℤ) : ℚ))
    ∧ (∀ (f : Nat → Net → Net) (k : Nat) (net : Net),
        closeLoop f (k + 1) net = closeLoop f k (f k net))
    ∧ (six_tuple_agent.close_episode alpha st).net s a
        = st.net s a + ∑ i ∈ Finset.range st.episode_boards.length,
            (if s < 32 then
              (if a = six_tuple_agent.shardAddr (st.episode_boards.getD i (fun _ => 0)) s
                then tdDelta alpha (st.episode_values ++ [0]) (st.episode_rewards ++ [0]) i
                else 0)
              else 0)
    ∧ (four_tuple_agent.close_episode alpha st).net s a
        = st.net s a + ∑ i ∈ Finset.range st.episode_boards.length,
            (if s < 8 then
              (if a = four_tuple_agent.rowColAddr (st.episode_boards.getD i (fun _ => 0)) s
                then tdDelta alpha (st.episode_values ++ [0]) (st.episode_rewards ++ [0]) i
                else 0)
              else 0) := by
  refine ⟨rfl, rfl, rfl, rfl, rfl, rfl, fun v r i => rfl, fun f k net => rfl, ?_, ?_⟩
  · have h6 : (six_tuple_agent.close_episode alpha st).net s a
        = closeLoop (fun i n => six_tuple_agent.update_net n
            (st.episode_boards.getD i (fun _ => 0))
            (tdDelta alpha (st.episode_values ++ [0]) (st.episode_rewards ++ [0]) i))
            st.episode_boards.length st.net s a := rfl
    rw [h6]
    apply closeLoop_add
    intro k net s' a'
    exact six_tuple_agent.update_net_apply net _ _ s' a'
  · have h4 : (four_tuple_agent.close_episode alpha st).net s a
        = closeLoop (fun i n => four_tuple_agent.update_net n
            (st.episode_boards.getD i (fun _ => 0))
            (tdDelta alpha (st.episode_values ++ [0]) (st.episode_rewards ++ [0]) i))
            st.episode_boards.length st.net s a := rfl
    rw [h4]
    apply closeLoop_add
    intro k net s' a'
    exact four_tuple_agent.update_net_four_apply net _ _ s' a'

/-- C3 (counterexample): configuring `alpha = 1/2` does not give the
six-tuple agent learning rate `1/2`: its constructor body overwrites the
base-constructor value with `0.1/32`. -/
theorem C3_counterexample : six_tuple_agent_alpha (some (1 / 2)) ≠ (1 / 2 : ℚ) := by
  norm_num [six_tuple_agent_alpha, weight_agent_alpha]

/-- C3 (amended): the `alpha` configuration key overrides the built-in
default `0.0125` in `weight_agent`, and the `four_tuple_agent` keeps that
value, using it for every update of its backward pass; but the
`six_tuple_agent` constructor, running after the base constructor,
unconditionally resets `alpha` to `0.1/32 = 1/320`, so its backward pass
always runs at `1/320` regardless of configuration. -/
theorem C3_amended (a : ℚ) (cfg : Option ℚ) (st : AgentState) :
    weight_agent_alpha (some a) = a
    ∧ weight_agent_alpha none = 0.0125
    ∧ four_tuple_agent_alpha (some a) = a
    ∧ six_tuple_agent_alpha cfg = 1 / 320
    ∧ four_tuple_agent.close_episode (four_tuple_agent_alpha (some a)) st
        = four_tuple_agent.close_episode a st
    ∧ six_tuple_agent.close_episode (six_tuple_agent_alpha cfg) st
        = six_tuple_agent.close_episode (1 / 320) st := by
  have h6 : six_tuple_agent_alpha cfg = 1 / 320 := by
    norm_num [six_tuple_agent_alpha, weight_agent_alpha]
  exact ⟨rfl, rfl, rfl, h6, rfl, by rw [h6]⟩

/-- C4: the value estimator and the backward updater of the `six_tuple_agent`
traverse exactly the same sequence of (shard, address) pairs — the 8 variants
in source order crossed with the 4 base tuples, targeting shards 0..31 — so
one `update_net b d` raises `calculate_state_value b` by exactly `32 * d`;
for the `four_tuple_agent` the 8 active entries lie in the 8 distinct shards
0,4,1,5,2,6,3,7, and one update raises the value by exactly `8 * d`. -/
theorem C4_symmetry_access (net : Net) (b : Board) (v : ℚ) :
    six_tuple_agent.calculate_state_value net b
        = ((six_tuple_agent.access_sequence_six b).map (fun p => net p.1 p.2)).sum
    ∧ six_tuple_agent.update_net net b v
        = (six_tuple_agent.access_sequence_six b).foldl
            (fun n p => pointAdd n p.1 p.2 v) net
    ∧ (six_tuple_agent.access_sequence_six b).map Prod.fst = List.range 32
    ∧ six_tuple_agent.calculate_state_value (six_tuple_agent.update_net net b v) b
        = six_tuple_agent.calculate_state_value net b + 32 * v
    ∧ four_tuple_agent.calculate_state_value net b
        = ((four_tuple_agent.access_sequence_four b).map (fun p => net p.1 p.2)).sum
    ∧ four_tuple_agent.update_net net b v
        = (four_tuple_agent.access_sequence_four b).foldl
            (fun n p => pointAdd n p.1 p.2 v) net
    ∧ (four_tuple_agent.access_sequence_four b).map Prod.fst = [0, 4, 1, 5, 2, 6, 3, 7]
    ∧ ([0, 4, 1, 5, 2, 6, 3, 7] : List Nat).Nodup
    ∧ four_tuple_agent.calculate_state_value (four_tuple_agent.update_net net b v) b
        = four_tuple_agent.calculate_state_value net b + 8 * v :=
  ⟨six_tuple_agent.calc_reads_six net b,
   six_tuple_agent.update_writes_six net b v,
   six_tuple_agent.shards_six b,
   six_tuple_agent.calc_update_six net b v,
   four_tuple_agent.calc_reads_four net b,
   four_tuple_agent.update_writes_four net b v,
   four_tuple_agent.shards_four b,
   by decide,
   four_tuple_agent.calc_update_four net b v⟩

end ThreesTD

namespace ThreesTD

/-- C5: starting from `open_episode` (cleared traces), an episode of
`take_action` calls with `k` accepted ones leaves all three trace sequences
at length `k`; after `close_episode` appends the terminal sentinel, the
reward and value sequences have length `k+1` while the board sequence stays
at length `k` — for both agents. -/
theorem C5_trace_lengths (slide : Board → Nat → Int × Board) (st : AgentState)
    (bs : List Board) (alpha : ℚ) :
    (six_tuple_agent.run_episode slide (six_tuple_agent.open_episode st) bs).episode_boards.length
        = acceptedCount slide bs
    ∧ (six_tuple_agent.run_episode slide (six_tuple_agent.open_episode st) bs).episode_rewards.length
        = acceptedCount slide bs
    ∧ (six_tuple_agent.run_episode slide (six_tuple_agent.open_episode st) bs).episode_values.length
        = acceptedCount slide bs
    ∧ (six_tuple_agent.close_episode alpha
        (six_tuple_agent.run_episode slide (six_tuple_agent.open_episode st) bs)).episode_rewards.length
        = acceptedCount slide bs + 1
    ∧ (six_tuple_agent.close_episode alpha
        (six_tuple_agent.run_episode slide (six_tuple_agent.open_episode st) bs)).episode_values.length
        = acceptedCount slide bs + 1
    ∧ (six_tuple_agent.close_episode alpha
        (six_tuple_agent.run_episode slide (six_tuple_agent.open_episode st) bs)).episode_boards.length
        = acceptedCount slide bs
    ∧ (four_tuple_agent.run_episode slide (four_tuple_agent.open_episode st) bs).episode_boards.length
        = acceptedCount slide bs
    ∧ (four_tuple_agent.run_episode slide (four_tuple_agent.open_episode st) bs).episode_rewards.length
        = acceptedCount slide bs
    ∧ (four_tuple_agent.run_episode slide (four_tuple_agent.open_episode st) bs).episode_values.length
        = acceptedCount slide bs
    ∧ (four_tuple_agent.close_episode alpha
        (four_tuple_agent.run_episode slide (four_tuple_agent.open_episode st) bs)).episode_rewards.length
        = acceptedCount slide bs + 1
    ∧ (four_tuple_agent.close_episode alpha
        (four_tuple_agent.run_episode slide (four_tuple_agent.open_episode st) bs)).episode_values.length
        = acceptedCount slide bs + 1
    ∧ (four_tuple_agent.close_episode alpha
        (four_tuple_agent.run_episode slide (four_tuple_agent.open_episode st) bs)).episode_boards.length
        = acceptedCount slide bs := by
  obtain ⟨hb6, hr6, hv6⟩ := six_tuple_agent.run_lengths_six slide bs (six_tuple_agent.open_episode st)
  obtain ⟨hb4, hr4, hv4⟩ := four_tuple_agent.run_lengths_four slide bs (four_tuple_agent.open_episode st)
  simp only [six_tuple_agent.open_episode, four_tuple_agent.open_episode, List.length_nil,
    Nat.zero_add] at hb6 hr6 hv6 hb4 hr4 hv4 ⊢
  refine ⟨hb6, hr6, hv6, ?_, ?_, ?_, hb4, hr4, hv4, ?_, ?_, ?_⟩
  · simp only [six_tuple_agent.close_episode, List.length_append, List.length_singleton, hr6]
  · simp only [six_tuple_agent.close_episode, List.length_append, List.length_singleton, hv6]
  · simp only [six_tuple_agent.close_episode, hb6]
  · simp only [four_tuple_agent.close_episode, List.length_append, List.length_singleton, hr4]
  · simp only [four_tuple_agent.close_episode, List.length_append, List.length_singleton, hv4]
  · simp only [four_tuple_agent.close_episode, hb4]

/-- C6: in `take_action` (both agents) the directions are tried in the fixed
order 0,1,2,3 with a strict greater-than comparison on
`reward + value(afterstate)`: whenever any direction is legal, the chosen
direction is legal, its evaluation is maximal among legal directions, and
every lower-enumerated legal direction has strictly smaller evaluation — so
ties go to the lower-enumerated direction, and the first legal direction is
always adopted as the initial candidate. -/
theorem C6_tie_break (slide : Board → Nat → Int × Board) (st : AgentState) (b : Board)
    (h : ∃ x ∈ [0, 1, 2, 3], (slide b x).1 ≠ -1) :
    (∃ d, d ∈ [0, 1, 2, 3] ∧ (slide b d).1 ≠ -1 ∧
      (six_tuple_agent.take_action slide st b).1 = some (d : Int) ∧
      (∀ x ∈ [0, 1, 2, 3], (slide b x).1 ≠ -1 →
        six_tuple_agent.action_value slide st.net b x
            ≤ six_tuple_agent.action_value slide st.net b d
        ∧ (x < d → six_tuple_agent.action_value slide st.net b x
            < six_tuple_agent.action_value slide st.net b d)))
    ∧ (∃ d, d ∈ [0, 1, 2, 3] ∧ (slide b d).1 ≠ -1 ∧
      (four_tuple_agent.take_action slide st b).1 = some (d : Int) ∧
      (∀ x ∈ [0, 1, 2, 3], (slide b x).1 ≠ -1 →
        four_tuple_agent.action_value slide st.net b x
            ≤ four_tuple_agent.action_value slide st.net b d
        ∧ (x < d → four_tuple_agent.action_value slide st.net b x
            < four_tuple_agent.action_value slide st.net b d))) := by
  obtain ⟨d6, hd6, hleg6, heq6, hmax6, hfirst6⟩ :=
    six_tuple_agent.take_action_accept_six slide st b h
  obtain ⟨d4, hd4, hleg4, heq4, hmax4, hfirst4⟩ :=
    four_tuple_agent.take_action_accept_four slide st b h
  refine ⟨⟨d6, hd6, hleg6, ?_, ?_⟩, ⟨d4, hd4, hleg4, ?_, ?_⟩⟩
  · rw [heq6]
  · intro x hx hxleg
    exact ⟨hmax6 x hx hxleg, fun hlt => hfirst6 x hx hxleg hlt⟩
  · rw [heq4]
  · intro x hx hxleg
    exact ⟨hmax4 x hx hxleg, fun hlt => hfirst4 x hx hxleg hlt⟩

/-- C6 (witness): on a stub where all four directions are legal with the very
same reward and afterstate — all evaluations tie — both agents pick
direction 0, the lowest-enumerated. -/
theorem C6_tie_break_witness :
    (∃ x ∈ [0, 1, 2, 3], (cSlideAll cBoard x).1 ≠ -1)
    ∧ ((∃ d, d ∈ [0, 1, 2, 3] ∧ (cSlideAll cBoard d).1 ≠ -1 ∧
      (six_tuple_agent.take_action cSlideAll cState cBoard).1 = some (d : Int) ∧
      (∀ x ∈ [0, 1, 2, 3], (cSlideAll cBoard x).1 ≠ -1 →
        six_tuple_agent.action_value cSlideAll cState.net cBoard x
            ≤ six_tuple_agent.action_value cSlideAll cState.net cBoard d
        ∧ (x < d → six_tuple_agent.action_value cSlideAll cState.net cBoard x
            < six_tuple_agent.action_value cSlideAll cState.net cBoard d)))
    ∧ (∃ d, d ∈ [0, 1, 2, 3] ∧ (cSlideAll cBoard d).1 ≠ -1 ∧
      (four_tuple_agent.take_action cSlideAll cState cBoard).1 = some (d : Int) ∧
      (∀ x ∈ [0, 1, 2, 3], (cSlideAll cBoard x).1 ≠ -1 →
        four_tuple_agent.action_value cSlideAll cState.net cBoard x
            ≤ four_tuple_agent.action_value cSlideAll cState.net cBoard d
        ∧ (x < d → four_tuple_agent.action_value cSlideAll cState.net cBoard x
            < four_tuple_agent.action_value cSlideAll cState.net cBoard d))))
    ∧ (six_tuple_agent.take_action cSlideAll cState cBoard).1 = some 0
    ∧ (four_tuple_agent.take_action cSlideAll cState cBoard).1 = some 0 :=
  ⟨by decide, C6_tie_break cSlideAll cState cBoard (by decide),
   by
    norm_num [six_tuple_agent.take_action, six_tuple_agent.step, cSlideAll, cState, cBoard,
      cNetZero, six_tuple_agent.calculate_state_value, six_tuple_agent.calcBlock,
      six_tuple_agent.tuple_address, truncTowardZero],
   by
    norm_num [four_tuple_agent.take_action, four_tuple_agent.step, cSlideAll, cState, cBoard,
      cNetZero, four_tuple_agent.calculate_state_value, four_tuple_agent.net_index,
      truncTowardZero]⟩

/-- C7: on a board where all four directional slides return the illegal
sentinel `-1`, `take_action` returns the rejection action and the whole agent
state — weight tables and all three trace sequences — is unchanged, for both
agents. -/
theorem C7_reject_terminal (slide : Board → Nat → Int × Board) (st : AgentState)
    (b : Board) (h : ∀ x ∈ [0, 1, 2, 3], (slide b x).1 = -1) :
    six_tuple_agent.take_action slide st b = (none, st)
    ∧ four_tuple_agent.take_action slide st b = (none, st) :=
  ⟨six_tuple_agent.take_action_reject_six slide st b h,
   four_tuple_agent.take_action_reject_four slide st b h⟩

/-- C7 (witness): the rejection behaviour at the concrete no-legal-move stub. -/
theorem C7_reject_terminal_witness :
    (∀ x ∈ [0, 1, 2, 3], (cSlideNone cBoard x).1 = -1)
    ∧ (six_tuple_agent.take_action cSlideNone cState cBoard = (none, cState)
      ∧ four_tuple_agent.take_action cSlideNone cState cBoard = (none, cState)) :=
  ⟨by decide, C7_reject_terminal cSlideNone cState cBoard (by decide)⟩

end ThreesTD

namespace ThreesTD

/-- C8: for cell values in 0..15, the bitwise-or packing used by both address
computations coincides with the shifted sum `Σ cellvalue(pos_j) << (4·j)`,
and the resulting address is below `2^(4·k)` — `2^16` for the four-cell
tuples and `2^24` for the six-cell tuples — hence within the configured
shard length. -/
theorem C8_address_packing (i0 i1 i2 i3 : Nat)
    (h0 : i0 < 16) (h1 : i1 < 16) (h2 : i2 < 16) (h3 : i3 < 16) :
    (four_tuple_agent.net_index i0 i1 i2 i3 = i0 + i1 * 16 + i2 * 256 + i3 * 4096
      ∧ four_tuple_agent.net_index i0 i1 i2 i3 < 2 ^ 16)
    ∧ ∀ (fb : Board) (t : List Nat), (∀ p, fb p < 16) →
        (six_tuple_agent.tuple_address fb t
            = fb (t.getD 0 0) + fb (t.getD 1 0) * 16 + fb (t.getD 2 0) * 256
              + fb (t.getD 3 0) * 4096 + fb (t.getD 4 0) * 65536
              + fb (t.getD 5 0) * 1048576
          ∧ six_tuple_agent.tuple_address fb t < 2 ^ 24) := by
  obtain ⟨he4, hl4⟩ := four_tuple_agent.net_index_eq_sum i0 i1 i2 i3 h0 h1 h2 h3
  refine ⟨⟨he4, by norm_num; omega⟩, ?_⟩
  intro fb t hfb
  obtain ⟨he6, hl6⟩ := six_tuple_agent.tuple_address_eq_sum fb t hfb
  exact ⟨he6, by norm_num; omega⟩

/-- C8 (witness): the packing identity at the concrete cells 1,2,3,4 and the
all-zero board. -/
theorem C8_address_packing_witness :
    (1 : Nat) < 16 ∧ (2 : Nat) < 16 ∧ (3 : Nat) < 16 ∧ (4 : Nat) < 16 ∧
    ((four_tuple_agent.net_index 1 2 3 4 = 1 + 2 * 16 + 3 * 256 + 4 * 4096
        ∧ four_tuple_agent.net_index 1 2 3 4 < 2 ^ 16)
      ∧ ∀ (fb : Board) (t : List Nat), (∀ p, fb p < 16) →
          (six_tuple_agent.tuple_address fb t
              = fb (t.getD 0 0) + fb (t.getD 1 0) * 16 + fb (t.getD 2 0) * 256
                + fb (t.getD 3 0) * 4096 + fb (t.getD 4 0) * 65536
                + fb (t.getD 5 0) * 1048576
            ∧ six_tuple_agent.tuple_address fb t < 2 ^ 24)) :=
  ⟨by norm_num, by norm_num, by norm_num, by norm_num,
   C8_address_packing 1 2 3 4 (by norm_num) (by norm_num) (by norm_num) (by norm_num)⟩

/-- C9: an unopenable weight file is fatal for both `load_weights` and
`save_weights` (termination with the nonzero status of `exit(-1)`); on
success, `load_weights` reads the 32-bit shard count then exactly that many
shards in order, and `save_weights` writes the shard count then every shard
in table order, so that a save/load round trip restores the store. -/
theorem C9_persistence (file : Nat × List (List ℚ)) (net : List (List ℚ))
    (hfile : file.1 ≤ file.2.length) (hnet : net.length < 2 ^ 32) :
    load_weights false file = Except.error (-1)
    ∧ save_weights false net = Except.error (-1)
    ∧ ((-1 : Int) ≠ 0)
    ∧ load_weights true file = Except.ok (file.2.take file.1)
    ∧ (file.2.take file.1).length = file.1
    ∧ save_weights true net = Except.ok (net.length % 2 ^ 32, net)
    ∧ load_weights true (net.length % 2 ^ 32, net) = Except.ok net := by
  refine ⟨rfl, rfl, by norm_num, rfl, ?_, rfl, ?_⟩
  · simp [List.length_take, hfile]
  · rw [show net.length % 2 ^ 32 = net.length from Nat.mod_eq_of_lt hnet]
    simp [load_weights]

/-- C9 (witness): persistence behaviour at a concrete two-shard file and a
concrete one-shard store. -/
theorem C9_persistence_witness :
    ((1 : Nat), [[(1 : ℚ)], [2]]).1 ≤ ((1 : Nat), [[(1 : ℚ)], [2]]).2.length
    ∧ ([[(5 : ℚ)]] : List (List ℚ)).length < 2 ^ 32
    ∧ (load_weights false (1, [[(1 : ℚ)], [2]]) = Except.error (-1)
      ∧ save_weights false [[(5 : ℚ)]] = Except.error (-1)
      ∧ ((-1 : Int) ≠ 0)
      ∧ load_weights true (1, [[(1 : ℚ)], [2]])
          = Except.ok (((1 : Nat), [[(1 : ℚ)], [2]]).2.take 1)
      ∧ (((1 : Nat), [[(1 : ℚ)], [2]]).2.take 1).length = 1
      ∧ save_weights true [[(5 : ℚ)]]
          = Except.ok (([[(5 : ℚ)]] : List (List ℚ)).length % 2 ^ 32, [[(5 : ℚ)]])
      ∧ load_weights true (([[(5 : ℚ)]] : List (List ℚ)).length % 2 ^ 32, [[(5 : ℚ)]])
          = Except.ok [[(5 : ℚ)]]) :=
  ⟨by norm_num, by norm_num,
   C9_persistence (1, [[(1 : ℚ)], [2]]) [[(5 : ℚ)]] (by norm_num) (by norm_num)⟩

/-- C10: the episode value and reward traces are machine-integer sequences:
whenever an action is accepted, the rational afterstate value computed during
`take_action` is truncated toward zero on being appended (the raw value for
the six-tuple agent, the reward-inclusive one for the four-tuple agent), and
the TD update of `close_episode` is computed by exact integer arithmetic on
those truncated sequences; truncation genuinely loses information, e.g. a
store of all-`1/3` entries values the empty board at `32/3` which is stored
as `10`. -/
theorem C10_trunc_values (slide : Board → Nat → Int × Board) (st : AgentState)
    (b : Board) (h : ∃ x ∈ [0, 1, 2, 3], (slide b x).1 ≠ -1) :
    (∃ d : Nat, d ∈ [0, 1, 2, 3] ∧
      six_tuple_agent.take_action slide st b = (some (d : Int),
        { st with
          episode_boards := st.episode_boards ++ [(slide b d).2],
          episode_rewards := st.episode_rewards ++ [(slide b d).1],
          episode_values := st.episode_values
            ++ [truncTowardZero (six_tuple_agent.calculate_state_value st.net
                ((slide b d).2))] }))
    ∧ (∃ d : Nat, d ∈ [0, 1, 2, 3] ∧
      four_tuple_agent.take_action slide st b = (some (d : Int),
        { st with
          episode_boards := st.episode_boards ++ [(slide b d).2],
          episode_rewards := st.episode_rewards ++ [(slide b d).1],
          episode_values := st.episode_values
            ++ [truncTowardZero (four_tuple_agent.action_value slide st.net b d)] }))
    ∧ (∀ (alpha : ℚ) (v r : List Int) (i : Nat), tdDelta alpha v r i
        = alpha * ((v.getD (i + 1) 0 + r.getD (i + 1) 0 - v.getD i 0 : ℤ) : ℚ))
    ∧ six_tuple_agent.calculate_state_value cNetThird cBoard = 32 / 3
    ∧ truncTowardZero (32 / 3 : ℚ) = 10
    ∧ ((10 : ℚ) ≠ 32 / 3) := by
  obtain ⟨d6, hd6, _, heq6, _, _⟩ := six_tuple_agent.take_action_accept_six slide st b h
  obtain ⟨d4, hd4, _, heq4, _, _⟩ := four_tuple_agent.take_action_accept_four slide st b h
  refine ⟨⟨d6, hd6, heq6⟩, ⟨d4, hd4, heq4⟩, fun alpha v r i => rfl, ?_, ?_, by norm_num⟩
  · norm_num [six_tuple_agent.calculate_state_value, six_tuple_agent.calcBlock, cNetThird,
      cBoard]
  · norm_num [truncTowardZero]

/-- C10 (witness): the truncation behaviour at the concrete only-direction-0
slide stub over a fresh agent state. -/
theorem C10_trunc_values_witness :
    (∃ x ∈ [0, 1, 2, 3], (cSlideOnly0 cBoard x).1 ≠ -1)
    ∧ ((∃ d : Nat, d ∈ [0, 1, 2, 3] ∧
      six_tuple_agent.take_action cSlideOnly0 cState cBoard = (some (d : Int),
        { cState with
          episode_boards := cState.episode_boards ++ [(cSlideOnly0 cBoard d).2],
          episode_rewards := cState.episode_rewards ++ [(cSlideOnly0 cBoard d).1],
          episode_values := cState.episode_values
            ++ [truncTowardZero (six_tuple_agent.calculate_state_value cState.net
                ((cSlideOnly0 cBoard d).2))] }))
    ∧ (∃ d : Nat, d ∈ [0, 1, 2, 3] ∧
      four_tuple_agent.take_action cSlideOnly0 cState cBoard = (some (d : Int),
        { cState with
          episode_boards := cState.episode_boards ++ [(cSlideOnly0 cBoard d).2],
          episode_rewards := cState.episode_rewards ++ [(cSlideOnly0 cBoard d).1],
          episode_values := cState.episode_values
            ++ [truncTowardZero (four_tuple_agent.action_value cSlideOnly0 cState.net
                cBoard d)] }))
    ∧ (∀ (alpha : ℚ) (v r : List Int) (i : Nat), tdDelta alpha v r i
        = alpha * ((v.getD (i + 1) 0 + r.getD (i + 1) 0 - v.getD i 0 : ℤ) : ℚ))
    ∧ six_tuple_agent.calculate_state_value cNetThird cBoard = 32 / 3
    ∧ truncTowardZero (32 / 3 : ℚ) = 10
    ∧ ((10 : ℚ) ≠ 32 / 3)) :=
  ⟨by decide, C10_trunc_values cSlideOnly0 cState cBoard (by decide)⟩

end ThreesTD
